import Mathlib

/-!
Verification of the core of gameboy-png-converter.

Shallow embedding of the quantizer and tile encoder implemented in
src/lib/gameboy-converter.js (imperative CommonJS copy and functional ESM
copy) and of the functional variant in src/index.js.  Pixel buffers are
lists of RGBA pixels in row-major order, machine numbers are Nat/Int, and
the imperative accumulation loops are folds over explicit ranges.
-/

namespace GB

/-- An RGB color record as stored in GAMEBOY_PALETTE. -/
structure Color where
  r : Nat
  g : Nat
  b : Nat
deriving DecidableEq

/-- One RGBA pixel of a decoded image buffer; the source reads groups of
four bytes from imageData.data. -/
structure Pixel where
  r : Nat
  g : Nat
  b : Nat
  a : Nat
deriving DecidableEq

/-- The fixed 4-entry Game Boy palette in declared order
(src/lib/gameboy-converter.js lines 6-11). -/
def GAMEBOY_PALETTE : List Color :=
  [⟨155, 188, 15⟩, ⟨139, 172, 15⟩, ⟨48, 98, 48⟩, ⟨15, 56, 15⟩]

/-- Palette entry by index, entry 0 returned for an out-of-range index. -/
def paletteColor (k : Nat) : Color :=
  GAMEBOY_PALETTE.getD k ⟨155, 188, 15⟩

/-- Squared Euclidean RGB distance.  The source function colorDistance
(lines 19-24) returns the square root of this value; the real square root
is strictly monotone on nonnegative reals, and for the integer radicands
occurring here (at most 3 * 255 ^ 2, far below the precision limit of IEEE
doubles) the floating-point square root preserves every strict comparison
and every tie.  The source only ever compares distances, so comparing the
exact integer squares embeds those comparisons faithfully. -/
def colorDistanceSq (color1 color2 : Color) : Int :=
  let dr : Int := (color1.r : Int) - (color2.r : Int)
  let dg : Int := (color1.g : Int) - (color2.g : Int)
  let db : Int := (color1.b : Int) - (color2.b : Int)
  dr * dr + dg * dg + db * db

/-- Comparison of a freshly computed distance against the running minimum
of the imperative loop; none models the initial Infinity, which every
finite distance compares below. -/
def ltMinDistance (d : Int) : Option Int → Bool
  | none => true
  | some m => decide (d < m)

/-- Imperative-loop nearest palette color, src/lib/gameboy-converter.js
lines 33-46: minDistance starts at Infinity, closestColor starts at
palette entry 0, and each palette entry in declared order replaces the
current best exactly when its distance is strictly smaller. -/
def findClosestGameBoyColor (r g b : Nat) : Color :=
  let input : Color := ⟨r, g, b⟩
  let final := GAMEBOY_PALETTE.foldl
    (fun acc pc =>
      let d := colorDistanceSq input pc
      if ltMinDistance d acc.2 then (pc, some d) else acc)
    (GAMEBOY_PALETTE.getD 0 ⟨0, 0, 0⟩, (none : Option Int))
  final.1

/-- Reduce-based nearest palette color, src/index.js lines 38-45.  A JS
reduce without an initial value starts from the first element and folds
over the rest, recomputing the distance of the current best each step and
keeping it unless the candidate is strictly closer. -/
def findClosestGameBoyColorReduce (r g b : Nat) : Color :=
  let input : Color := ⟨r, g, b⟩
  (GAMEBOY_PALETTE.drop 1).foldl
    (fun closest pc =>
      if colorDistanceSq input pc < colorDistanceSq input closest then pc else closest)
    (GAMEBOY_PALETTE.getD 0 ⟨0, 0, 0⟩)

/-- Exact-match palette lookup, src/lib/gameboy-converter.js lines 55-62:
four equality tests in palette order, defaulting to 0. -/
def colorToGBDKValue (r g b : Nat) : Nat :=
  if r = 155 ∧ g = 188 ∧ b = 15 then 0
  else if r = 139 ∧ g = 172 ∧ b = 15 then 1
  else if r = 48 ∧ g = 98 ∧ b = 48 then 2
  else if r = 15 ∧ g = 56 ∧ b = 15 then 3
  else 0

/-- The per-pixel quantization pass of convertToGameBoy
(src/lib/gameboy-converter.js lines 95-109 and 445-459): every pixel has
its RGB replaced by the nearest palette color while its alpha channel is
kept unchanged, in input order. -/
def quantize (pixels : List Pixel) : List Pixel :=
  pixels.map (fun p =>
    let gameBoyColor := findClosestGameBoyColor p.r p.g p.b
    ⟨gameBoyColor.r, gameBoyColor.g, gameBoyColor.b, p.a⟩)

/-- Tile grid dimension, Math.ceil(n / 8) (source lines 168-169). -/
def tileCountOf (n : Nat) : Nat :=
  (n + 7) / 8

/-- Pixel fetch at coordinates (x, y): the source reads
data[(pixelY * width + pixelX) * 4] and the two following bytes.  The
all-zero default pixel maps to palette index 0 under colorToGBDKValue,
exactly as an undefined out-of-range typed-array read would. -/
def pixelAt (width : Nat) (pixels : List Pixel) (x y : Nat) : Pixel :=
  pixels.getD (y * width + x) ⟨0, 0, 0, 0⟩

/-- Inner column loop of the tile encoder (source lines 191-215): builds
the low and high bitplane bytes of one 8-pixel tile row by OR-ing bit
(7 - col) into each plane whose bit of the pixel palette index is set;
out-of-bounds positions leave both accumulators unchanged. -/
def tileRowBytes (width height : Nat) (pixels : List Pixel)
    (tileX tileY row : Nat) : Nat × Nat :=
  (List.range 8).foldl
    (fun acc col =>
      let pixelX := tileX * 8 + col
      let pixelY := tileY * 8 + row
      if pixelX < width ∧ pixelY < height then
        let p := pixelAt width pixels pixelX pixelY
        let colorValue := colorToGBDKValue p.r p.g p.b
        let bit := 7 - col
        (if colorValue &&& 1 ≠ 0 then acc.1 ||| (1 <<< bit) else acc.1,
         if colorValue &&& 2 ≠ 0 then acc.2 ||| (1 <<< bit) else acc.2)
      else acc)
    (0, 0)

/-- The tile encoding pass of generateGBDKCode (source lines 186-218):
row-major tile loop (tileY outer, tileX inner), 8 rows per tile, and for
each row the low byte is pushed before the high byte; tileCountOf width
and tileCountOf height are the tileWidth and tileHeight constants of the
source. -/
def encodeTiles (width height : Nat) (pixels : List Pixel) : List Nat :=
  (List.range (tileCountOf height)).flatMap (fun tileY =>
    (List.range (tileCountOf width)).flatMap (fun tileX =>
      (List.range 8).flatMap (fun row =>
        [(tileRowBytes width height pixels tileX tileY row).1,
         (tileRowBytes width height pixels tileX tileY row).2])))

/-- The toUpperCase call of the source applied to a base identifier:
ASCII uppercasing, written as a structural map over the character list so
that it evaluates inside the kernel (String.toUpper maps the same
Char.toUpper over the string). -/
def toUpperStr (s : String) : String :=
  String.mk (s.data.map Char.toUpper)

/-- Hexadecimal rendering of one byte: toString(16) padded to two digits
with a leading 0 and uppercased (source line 224). -/
def hexByte (n : Nat) : String :=
  let s := toUpperStr (String.mk (Nat.toDigits 16 n))
  if s.length < 2 then "0" ++ s else s

/-- One line of the hexadecimal data block in the library generator
(source lines 221-228): up to eight 0xHH literals, each followed by a
comma-space separator unless it is the last byte of the whole array. -/
def hexDataLine (tiles : List Nat) (i : Nat) : String :=
  (List.range 8).foldl
    (fun s j =>
      if i + j < tiles.length then
        s ++ "0x" ++ hexByte (tiles.getD (i + j) 0) ++
          (if i + j < tiles.length - 1 then ", " else "")
      else s)
    "    "

/-- All data lines of the library generator, one per chunk of 8 bytes. -/
def hexDataLines (tiles : List Nat) : List String :=
  (List.range ((tiles.length + 7) / 8)).map (fun k => hexDataLine tiles (8 * k))

/-- The GBDK listing built by generateGBDKCode in
src/lib/gameboy-converter.js (lines 171-244), as its list of text lines;
the source emits exactly these lines joined by newlines.  baseName stands
for the variableName option or the sanitized image file stem, and
generatedOn for the spliced toISOString timestamp; both come from outside
the core (file paths and clocks), so they are parameters here. -/
def gbdkListingLines (baseName generatedOn : String) (width height : Nat)
    (tiles : List Nat) : List String :=
  let tileWidth := tileCountOf width
  let tileHeight := tileCountOf height
  ["// Automatically generated Sprite/Tile",
   "// Dimensions: " ++ toString width ++ "x" ++ toString height ++ " pixels (" ++
     toString tileWidth ++ "x" ++ toString tileHeight ++ " tiles)",
   "// Generated on: " ++ generatedOn,
   "",
   "#include <gb/gb.h>",
   "",
   "// Sprite/tile data",
   "const unsigned char " ++ baseName ++ "_data[] = \x7b"] ++
  hexDataLines tiles ++
  ["\x7d;",
   "",
   "// Sprite/tile information:",
   "#define " ++ toUpperStr baseName ++ "_WIDTH " ++ toString width,
   "#define " ++ toUpperStr baseName ++ "_HEIGHT " ++ toString height,
   "#define " ++ toUpperStr baseName ++ "_TILE_WIDTH " ++ toString tileWidth,
   "#define " ++ toUpperStr baseName ++ "_TILE_HEIGHT " ++ toString tileHeight,
   "#define " ++ toUpperStr baseName ++ "_TILE_COUNT " ++ toString (tileWidth * tileHeight),
   "#define " ++ toUpperStr baseName ++ "_SIZE " ++ toString tiles.length,
   "",
   "// Usage example:",
   "// set_sprite_data(0, " ++ toString (tileWidth * tileHeight) ++ ", " ++
     baseName ++ "_data);",
   "// set_sprite_tile(0, 0); // To use the first tile"]

/-- One data line of the functional variant in src/index.js (lines
182-188): a slice of 8 bytes rendered as 0xHH literals joined by
comma-space, with no trailing separator at the line end. -/
def indexHexLines (tiles : List Nat) : List String :=
  (List.range ((tiles.length + 7) / 8)).map (fun k =>
    "    " ++ String.intercalate ", "
      (((tiles.drop (8 * k)).take 8).map (fun byte => "0x" ++ hexByte byte)))

/-- The GBDK listing built by generateGBDKCode in src/index.js (lines
191-213), as its list of text lines.  Note that its information block
defines only five constants: the TILE_COUNT define of the library version
is absent. -/
def indexListingLines (baseName generatedOn : String) (width height : Nat)
    (tiles : List Nat) : List String :=
  let tileWidth := tileCountOf width
  let tileHeight := tileCountOf height
  ["// Automatically generated Sprite/Tile",
   "// Dimensions: " ++ toString width ++ "x" ++ toString height ++ " pixels (" ++
     toString tileWidth ++ "x" ++ toString tileHeight ++ " tiles)",
   "// Generated on: " ++ generatedOn,
   "",
   "#include <gb/gb.h>",
   "",
   "// Sprite/tile data",
   "const unsigned char " ++ baseName ++ "_data[] = \x7b"] ++
  indexHexLines tiles ++
  ["\x7d;",
   "",
   "// Sprite/tile information:",
   "#define " ++ toUpperStr baseName ++ "_WIDTH " ++ toString width,
   "#define " ++ toUpperStr baseName ++ "_HEIGHT " ++ toString height,
   "#define " ++ toUpperStr baseName ++ "_TILE_WIDTH " ++ toString tileWidth,
   "#define " ++ toUpperStr baseName ++ "_TILE_HEIGHT " ++ toString tileHeight,
   "#define " ++ toUpperStr baseName ++ "_SIZE " ++ toString tiles.length,
   "",
   "// Usage example:",
   "// set_sprite_data(0, " ++ toString (tileWidth * tileHeight) ++ ", " ++
     baseName ++ "_data);",
   "// set_sprite_tile(0, 0); // To use the first tile"]

/-! Helper lemmas. -/

/-- Unfolding of the imperative nearest-color loop into its decision tree:
each palette entry replaces the current best exactly when strictly
closer, the first comparison against Infinity always succeeding. -/
theorem findClosest_eq_ifs (r g b : Nat) :
    findClosestGameBoyColor r g b =
      (if colorDistanceSq ⟨r, g, b⟩ (paletteColor 1) < colorDistanceSq ⟨r, g, b⟩ (paletteColor 0) then
        if colorDistanceSq ⟨r, g, b⟩ (paletteColor 2) < colorDistanceSq ⟨r, g, b⟩ (paletteColor 1) then
          if colorDistanceSq ⟨r, g, b⟩ (paletteColor 3) < colorDistanceSq ⟨r, g, b⟩ (paletteColor 2) then
            paletteColor 3
          else paletteColor 2
        else
          if colorDistanceSq ⟨r, g, b⟩ (paletteColor 3) < colorDistanceSq ⟨r, g, b⟩ (paletteColor 1) then
            paletteColor 3
          else paletteColor 1
      else
        if colorDistanceSq ⟨r, g, b⟩ (paletteColor 2) < colorDistanceSq ⟨r, g, b⟩ (paletteColor 0) then
          if colorDistanceSq ⟨r, g, b⟩ (paletteColor 3) < colorDistanceSq ⟨r, g, b⟩ (paletteColor 2) then
            paletteColor 3
          else paletteColor 2
        else
          if colorDistanceSq ⟨r, g, b⟩ (paletteColor 3) < colorDistanceSq ⟨r, g, b⟩ (paletteColor 0) then
            paletteColor 3
          else paletteColor 0) := by
  unfold findClosestGameBoyColor
  rw [show GAMEBOY_PALETTE = [paletteColor 0, paletteColor 1, paletteColor 2, paletteColor 3] from rfl]
  by_cases h1 : colorDistanceSq ⟨r, g, b⟩ (paletteColor 1) < colorDistanceSq ⟨r, g, b⟩ (paletteColor 0) <;>
  by_cases h2 : colorDistanceSq ⟨r, g, b⟩ (paletteColor 2) < colorDistanceSq ⟨r, g, b⟩ (paletteColor 1) <;>
  by_cases h3 : colorDistanceSq ⟨r, g, b⟩ (paletteColor 2) < colorDistanceSq ⟨r, g, b⟩ (paletteColor 0) <;>
  by_cases h4 : colorDistanceSq ⟨r, g, b⟩ (paletteColor 3) < colorDistanceSq ⟨r, g, b⟩ (paletteColor 2) <;>
  by_cases h5 : colorDistanceSq ⟨r, g, b⟩ (paletteColor 3) < colorDistanceSq ⟨r, g, b⟩ (paletteColor 1) <;>
  by_cases h6 : colorDistanceSq ⟨r, g, b⟩ (paletteColor 3) < colorDistanceSq ⟨r, g, b⟩ (paletteColor 0) <;>
  simp [List.foldl_cons, List.foldl_nil, ltMinDistance, h1, h2, h3, h4, h5, h6]

/-- Unfolding of the reduce-based nearest-color fold into the same
decision tree as the imperative loop. -/
theorem findClosestReduce_eq_ifs (r g b : Nat) :
    findClosestGameBoyColorReduce r g b =
      (if colorDistanceSq ⟨r, g, b⟩ (paletteColor 1) < colorDistanceSq ⟨r, g, b⟩ (paletteColor 0) then
        if colorDistanceSq ⟨r, g, b⟩ (paletteColor 2) < colorDistanceSq ⟨r, g, b⟩ (paletteColor 1) then
          if colorDistanceSq ⟨r, g, b⟩ (paletteColor 3) < colorDistanceSq ⟨r, g, b⟩ (paletteColor 2) then
            paletteColor 3
          else paletteColor 2
        else
          if colorDistanceSq ⟨r, g, b⟩ (paletteColor 3) < colorDistanceSq ⟨r, g, b⟩ (paletteColor 1) then
            paletteColor 3
          else paletteColor 1
      else
        if colorDistanceSq ⟨r, g, b⟩ (paletteColor 2) < colorDistanceSq ⟨r, g, b⟩ (paletteColor 0) then
          if colorDistanceSq ⟨r, g, b⟩ (paletteColor 3) < colorDistanceSq ⟨r, g, b⟩ (paletteColor 2) then
            paletteColor 3
          else paletteColor 2
        else
          if colorDistanceSq ⟨r, g, b⟩ (paletteColor 3) < colorDistanceSq ⟨r, g, b⟩ (paletteColor 0) then
            paletteColor 3
          else paletteColor 0) := by
  unfold findClosestGameBoyColorReduce
  rw [show GAMEBOY_PALETTE = [paletteColor 0, paletteColor 1, paletteColor 2, paletteColor 3] from rfl]
  by_cases h1 : colorDistanceSq ⟨r, g, b⟩ (paletteColor 1) < colorDistanceSq ⟨r, g, b⟩ (paletteColor 0) <;>
  by_cases h2 : colorDistanceSq ⟨r, g, b⟩ (paletteColor 2) < colorDistanceSq ⟨r, g, b⟩ (paletteColor 1) <;>
  by_cases h3 : colorDistanceSq ⟨r, g, b⟩ (paletteColor 2) < colorDistanceSq ⟨r, g, b⟩ (paletteColor 0) <;>
  by_cases h4 : colorDistanceSq ⟨r, g, b⟩ (paletteColor 3) < colorDistanceSq ⟨r, g, b⟩ (paletteColor 2) <;>
  by_cases h5 : colorDistanceSq ⟨r, g, b⟩ (paletteColor 3) < colorDistanceSq ⟨r, g, b⟩ (paletteColor 1) <;>
  by_cases h6 : colorDistanceSq ⟨r, g, b⟩ (paletteColor 3) < colorDistanceSq ⟨r, g, b⟩ (paletteColor 0) <;>
  simp [List.foldl_cons, List.foldl_nil, h1, h2, h3, h4, h5, h6]

/-- The imperative loop returns the first palette entry realizing the
minimal squared distance. -/
theorem findClosest_argmin (r g b : Nat) :
    ∃ k, k < 4 ∧ findClosestGameBoyColor r g b = paletteColor k ∧
      (∀ j, j < 4 →
        colorDistanceSq ⟨r, g, b⟩ (paletteColor k) ≤ colorDistanceSq ⟨r, g, b⟩ (paletteColor j)) ∧
      (∀ j, j < k →
        colorDistanceSq ⟨r, g, b⟩ (paletteColor k) < colorDistanceSq ⟨r, g, b⟩ (paletteColor j)) := by
  rw [findClosest_eq_ifs]
  split_ifs with h1 h2 h3 h4 h5 h6 h7
  · exact ⟨3, by omega, rfl, fun j hj => by interval_cases j <;> omega,
      fun j hj => by interval_cases j <;> omega⟩
  · exact ⟨2, by omega, rfl, fun j hj => by interval_cases j <;> omega,
      fun j hj => by interval_cases j <;> omega⟩
  · exact ⟨3, by omega, rfl, fun j hj => by interval_cases j <;> omega,
      fun j hj => by interval_cases j <;> omega⟩
  · exact ⟨1, by omega, rfl, fun j hj => by interval_cases j <;> omega,
      fun j hj => by interval_cases j <;> omega⟩
  · exact ⟨3, by omega, rfl, fun j hj => by interval_cases j <;> omega,
      fun j hj => by interval_cases j <;> omega⟩
  · exact ⟨2, by omega, rfl, fun j hj => by interval_cases j <;> omega,
      fun j hj => by interval_cases j <;> omega⟩
  · exact ⟨3, by omega, rfl, fun j hj => by interval_cases j <;> omega,
      fun j hj => by interval_cases j <;> omega⟩
  · exact ⟨0, by omega, rfl, fun j hj => by interval_cases j <;> omega,
      fun j hj => by interval_cases j <;> omega⟩

/-- The loop always answers with a palette entry. -/
theorem findClosest_mem (r g b : Nat) :
    findClosestGameBoyColor r g b ∈ GAMEBOY_PALETTE := by
  rw [findClosest_eq_ifs]
  split_ifs <;> decide

/-- Palette colors are fixed points of the nearest-color search. -/
theorem findClosest_fixed (c : Color) (hc : c ∈ GAMEBOY_PALETTE) :
    findClosestGameBoyColor c.r c.g c.b = c := by
  simp only [GAMEBOY_PALETTE, List.mem_cons, List.not_mem_nil, or_false] at hc
  rcases hc with h | h | h | h <;> subst h <;> decide

/-- Quantization leaves an already quantized buffer unchanged. -/
theorem quantize_fixed (pixels : List Pixel)
    (h : ∀ p ∈ pixels, (⟨p.r, p.g, p.b⟩ : Color) ∈ GAMEBOY_PALETTE) :
    quantize pixels = pixels := by
  induction pixels with
  | nil => rfl
  | cons p ps ih =>
    have hp := findClosest_fixed ⟨p.r, p.g, p.b⟩ (h p (List.mem_cons_self p ps))
    simp only [quantize, List.map_cons] at *
    rw [hp]
    exact congrArg (p :: ·) (ih (fun q hq => h q (List.mem_cons_of_mem p hq)))

/-- Every pixel produced by quantization carries a palette RGB. -/
theorem quantize_rgb_mem (pixels : List Pixel) (q : Pixel) (hq : q ∈ quantize pixels) :
    (⟨q.r, q.g, q.b⟩ : Color) ∈ GAMEBOY_PALETTE := by
  simp only [quantize, List.mem_map] at hq
  obtain ⟨p, _, hp⟩ := hq
  subst hp
  exact findClosest_mem p.r p.g p.b

/-- Quantization is idempotent. -/
theorem quantize_idem (pixels : List Pixel) :
    quantize (quantize pixels) = quantize pixels :=
  quantize_fixed (quantize pixels) (fun q hq => quantize_rgb_mem pixels q hq)

/-- getD through map at an in-range index. -/
theorem map_getD_lt {α β : Type} (f : α → β) :
    ∀ (l : List α) (i : Nat), i < l.length → ∀ (d : β) (d2 : α),
      (l.map f).getD i d = f (l.getD i d2) := by
  intro l
  induction l with
  | nil => intro i hi; simp at hi
  | cons x xs ih =>
    intro i hi d d2
    cases i with
    | zero => simp
    | succ n =>
      simp only [List.map_cons, List.getD_cons_succ]
      exact ih n (by simpa using hi) d d2

/-- Length of a flatMap over a range of constant-size chunks. -/
theorem length_range_flatMap {α : Type} (f : Nat → List α) (k : Nat)
    (hf : ∀ i, (f i).length = k) (n : Nat) :
    ((List.range n).flatMap f).length = n * k := by
  induction n with
  | zero => simp
  | succ m ih =>
    rw [List.range_succ, List.flatMap_append, List.length_append, ih]
    simp [hf m, Nat.succ_mul]

/-- Indexing into a flatMap over a range of constant-size chunks. -/
theorem getD_range_flatMap {α : Type} (k : Nat) :
    ∀ (n : Nat) (f : Nat → List α), (∀ i, (f i).length = k) →
      ∀ (i j : Nat), i < n → j < k → ∀ (d : α),
        ((List.range n).flatMap f).getD (i * k + j) d = (f i).getD j d := by
  intro n
  induction n with
  | zero => intro f hf i j hi; omega
  | succ m ih =>
    intro f hf i j hi hj d
    rw [List.range_succ_eq_map, List.flatMap_cons, List.flatMap_map]
    cases i with
    | zero =>
      have h0 : 0 * k + j = j := by omega
      rw [h0, List.getD_append _ _ _ j (by rw [hf 0]; exact hj)]
    | succ i2 =>
      have hlen : (f 0).length ≤ (i2 + 1) * k + j := by
        rw [hf 0]
        calc k ≤ (i2 + 1) * k := by nlinarith
        _ ≤ (i2 + 1) * k + j := by omega
      rw [List.getD_append_right _ _ _ _ hlen]
      have hidx : (i2 + 1) * k + j - (f 0).length = i2 * k + j := by
        rw [hf 0]
        have : (i2 + 1) * k = i2 * k + k := by ring
        omega
      rw [hidx]
      exact ih (fun a => f (a + 1)) (fun a => hf (a + 1)) i2 j (by omega) hj d

/-- testBit through a conditional OR of a single bit. -/
theorem orBit_testBit (c : Bool) (a p k : Nat) :
    (if c then a ||| (1 <<< p) else a).testBit k = (a.testBit k || (c && decide (p = k))) := by
  cases c <;> simp [Nat.testBit_lor, Nat.one_shiftLeft, Nat.testBit_two_pow]

/-- Bit content of the two accumulators of a bitplane fold. -/
theorem foldl_planes_testBit (L H : Nat → Bool) :
    ∀ (cols : List Nat) (acc : Nat × Nat) (k : Nat),
      ((cols.foldl (fun acc col =>
          (if L col then acc.1 ||| (1 <<< (7 - col)) else acc.1,
           if H col then acc.2 ||| (1 <<< (7 - col)) else acc.2)) acc).1.testBit k
         = (acc.1.testBit k || cols.any (fun col => L col && decide (7 - col = k)))) ∧
      ((cols.foldl (fun acc col =>
          (if L col then acc.1 ||| (1 <<< (7 - col)) else acc.1,
           if H col then acc.2 ||| (1 <<< (7 - col)) else acc.2)) acc).2.testBit k
         = (acc.2.testBit k || cols.any (fun col => H col && decide (7 - col = k)))) := by
  intro cols
  induction cols with
  | nil => simp
  | cons c cs ih =>
    intro acc k
    simp only [List.foldl_cons, List.any_cons]
    constructor
    · rw [(ih _ k).1]
      simp only [orBit_testBit, Bool.or_assoc]
    · rw [(ih _ k).2]
      simp only [orBit_testBit, Bool.or_assoc]

/-- The source column loop is a bitplane fold whose low plane condition is
in-bounds together with bit 0 of the palette index, and whose high plane
condition is in-bounds together with bit 1. -/
theorem tileRowBytes_fold_form (width height : Nat) (pixels : List Pixel)
    (tileX tileY row : Nat) :
    tileRowBytes width height pixels tileX tileY row =
      (List.range 8).foldl (fun acc col =>
        (if decide (tileX * 8 + col < width ∧ tileY * 8 + row < height) &&
              decide (colorToGBDKValue (pixelAt width pixels (tileX * 8 + col) (tileY * 8 + row)).r
                  (pixelAt width pixels (tileX * 8 + col) (tileY * 8 + row)).g
                  (pixelAt width pixels (tileX * 8 + col) (tileY * 8 + row)).b &&& 1 ≠ 0) then
           acc.1 ||| (1 <<< (7 - col)) else acc.1,
         if decide (tileX * 8 + col < width ∧ tileY * 8 + row < height) &&
              decide (colorToGBDKValue (pixelAt width pixels (tileX * 8 + col) (tileY * 8 + row)).r
                  (pixelAt width pixels (tileX * 8 + col) (tileY * 8 + row)).g
                  (pixelAt width pixels (tileX * 8 + col) (tileY * 8 + row)).b &&& 2 ≠ 0) then
           acc.2 ||| (1 <<< (7 - col)) else acc.2)) (0, 0) := by
  unfold tileRowBytes
  congr 1
  funext acc col
  by_cases hin : tileX * 8 + col < width ∧ tileY * 8 + row < height
  · simp [hin]
  · simp [hin]

/-- Bit (7 - col) of the low and high bytes of one tile row. -/
theorem tileRowBytes_testBit (width height : Nat) (pixels : List Pixel)
    (tileX tileY row col : Nat) (hc : col < 8) :
    ((tileRowBytes width height pixels tileX tileY row).1.testBit (7 - col)
       = (decide (tileX * 8 + col < width ∧ tileY * 8 + row < height) &&
          decide (colorToGBDKValue (pixelAt width pixels (tileX * 8 + col) (tileY * 8 + row)).r
              (pixelAt width pixels (tileX * 8 + col) (tileY * 8 + row)).g
              (pixelAt width pixels (tileX * 8 + col) (tileY * 8 + row)).b &&& 1 ≠ 0))) ∧
    ((tileRowBytes width height pixels tileX tileY row).2.testBit (7 - col)
       = (decide (tileX * 8 + col < width ∧ tileY * 8 + row < height) &&
          decide (colorToGBDKValue (pixelAt width pixels (tileX * 8 + col) (tileY * 8 + row)).r
              (pixelAt width pixels (tileX * 8 + col) (tileY * 8 + row)).g
              (pixelAt width pixels (tileX * 8 + col) (tileY * 8 + row)).b &&& 2 ≠ 0))) := by
  rw [tileRowBytes_fold_form]
  constructor
  · rw [(foldl_planes_testBit _ _ (List.range 8) (0, 0) (7 - col)).1]
    rw [show (List.range 8) = [0, 1, 2, 3, 4, 5, 6, 7] from rfl]
    simp only [List.any_cons, List.any_nil, Nat.zero_testBit, Bool.false_or, Bool.or_false]
    interval_cases col <;> simp
  · rw [(foldl_planes_testBit _ _ (List.range 8) (0, 0) (7 - col)).2]
    rw [show (List.range 8) = [0, 1, 2, 3, 4, 5, 6, 7] from rfl]
    simp only [List.any_cons, List.any_nil, Nat.zero_testBit, Bool.false_or, Bool.or_false]
    interval_cases col <;> simp

/-- The two bytes of one tile row form a chunk of length 2. -/
theorem rowChunk_length (width height : Nat) (pixels : List Pixel) (tileX tileY : Nat) :
    ∀ row : Nat,
      ([(tileRowBytes width height pixels tileX tileY row).1,
        (tileRowBytes width height pixels tileX tileY row).2] : List Nat).length = 2 :=
  fun _ => rfl

/-- One tile contributes 16 bytes. -/
theorem tileChunk_length (width height : Nat) (pixels : List Pixel) (tileY : Nat) :
    ∀ tileX : Nat,
      ((List.range 8).flatMap (fun row =>
        [(tileRowBytes width height pixels tileX tileY row).1,
         (tileRowBytes width height pixels tileX tileY row).2])).length = 16 :=
  fun tileX =>
    length_range_flatMap _ 2 (rowChunk_length width height pixels tileX tileY) 8

/-- One row of tiles contributes tileCountX times 16 bytes. -/
theorem tileStrip_length (width height : Nat) (pixels : List Pixel) :
    ∀ tileY : Nat,
      ((List.range (tileCountOf width)).flatMap (fun tileX =>
        (List.range 8).flatMap (fun row =>
          [(tileRowBytes width height pixels tileX tileY row).1,
           (tileRowBytes width height pixels tileX tileY row).2]))).length
        = tileCountOf width * 16 :=
  fun tileY =>
    length_range_flatMap _ 16 (tileChunk_length width height pixels tileY) (tileCountOf width)

/-- Total size of the encoded byte sequence. -/
theorem encodeTiles_length (width height : Nat) (pixels : List Pixel) :
    (encodeTiles width height pixels).length =
      tileCountOf width * tileCountOf height * 16 := by
  unfold encodeTiles
  rw [length_range_flatMap _ (tileCountOf width * 16)
    (tileStrip_length width height pixels) (tileCountOf height)]
  ring

/-- The byte pair of tile (tileX, tileY), row, sits at offset
((tileY * tileCountX + tileX) * 8 + row) * 2 of the encoded sequence. -/
theorem encodeTiles_getD (width height : Nat) (pixels : List Pixel)
    (tileX tileY row bsel : Nat) (hx : tileX < tileCountOf width)
    (hy : tileY < tileCountOf height) (hr : row < 8) (hb : bsel < 2) (d : Nat) :
    (encodeTiles width height pixels).getD
        (((tileY * tileCountOf width + tileX) * 8 + row) * 2 + bsel) d
      = [(tileRowBytes width height pixels tileX tileY row).1,
         (tileRowBytes width height pixels tileX tileY row).2].getD bsel d := by
  have hidx : ((tileY * tileCountOf width + tileX) * 8 + row) * 2 + bsel
      = tileY * (tileCountOf width * 16) + (tileX * 16 + (row * 2 + bsel)) := by ring
  have hinner : tileX * 16 + (row * 2 + bsel) < tileCountOf width * 16 := by
    have h1 : tileX * 16 + (row * 2 + bsel) < (tileX + 1) * 16 := by omega
    have h2 : (tileX + 1) * 16 ≤ tileCountOf width * 16 :=
      Nat.mul_le_mul_right _ (by omega)
    omega
  unfold encodeTiles
  rw [hidx]
  rw [getD_range_flatMap (tileCountOf width * 16) (tileCountOf height) _
    (tileStrip_length width height pixels) tileY _ hy hinner d]
  rw [getD_range_flatMap 16 (tileCountOf width) _
    (tileChunk_length width height pixels tileY) tileX (row * 2 + bsel) hx (by omega) d]
  rw [getD_range_flatMap 2 8 _
    (rowChunk_length width height pixels tileX tileY) row bsel hr hb d]

/-- The exact-match lookup never leaves the 2-bit range. -/
theorem colorToGBDKValue_lt (r g b : Nat) : colorToGBDKValue r g b < 4 := by
  unfold colorToGBDKValue
  split_ifs <;> omega

/-- For a 2-bit value, the source test (value AND 1) not zero is bit 0. -/
theorem decide_and_one (v : Nat) (hv : v < 4) :
    decide (v &&& 1 ≠ 0) = v.testBit 0 := by
  interval_cases v <;> decide

/-- For a 2-bit value, the source test (value AND 2) not zero is bit 1. -/
theorem decide_and_two (v : Nat) (hv : v < 4) :
    decide (v &&& 2 ≠ 0) = v.testBit 1 := by
  interval_cases v <;> decide

/-! Claim theorems. -/

/-- C1: for every pixel buffer with width and height at least 1, the tile
encoder visits tiles in row-major grid order and emits, for tile
(tileX, tileY) and row, its low-plane byte at offset
((tileY * tileCountX + tileX) * 8 + row) * 2 and its high-plane byte one
position later; bit (7 - col) of the low byte is bit 0 of the palette
index of pixel (tileX * 8 + col, tileY * 8 + row) and bit (7 - col) of
the high byte is bit 1, with out-of-bounds positions contributing a 0 bit
to both planes. -/
theorem claim_C1_tile_bit_layout (width height : Nat) (pixels : List Pixel)
    (hw : 1 ≤ width) (hh : 1 ≤ height) (tileX tileY row col : Nat)
    (hx : tileX < tileCountOf width) (hy : tileY < tileCountOf height)
    (hr : row < 8) (hc : col < 8) :
    (((encodeTiles width height pixels).getD
        (((tileY * tileCountOf width + tileX) * 8 + row) * 2) 0).testBit (7 - col)
      = (decide (tileX * 8 + col < width ∧ tileY * 8 + row < height) &&
         (colorToGBDKValue (pixelAt width pixels (tileX * 8 + col) (tileY * 8 + row)).r
            (pixelAt width pixels (tileX * 8 + col) (tileY * 8 + row)).g
            (pixelAt width pixels (tileX * 8 + col) (tileY * 8 + row)).b).testBit 0)) ∧
    (((encodeTiles width height pixels).getD
        (((tileY * tileCountOf width + tileX) * 8 + row) * 2 + 1) 0).testBit (7 - col)
      = (decide (tileX * 8 + col < width ∧ tileY * 8 + row < height) &&
         (colorToGBDKValue (pixelAt width pixels (tileX * 8 + col) (tileY * 8 + row)).r
            (pixelAt width pixels (tileX * 8 + col) (tileY * 8 + row)).g
            (pixelAt width pixels (tileX * 8 + col) (tileY * 8 + row)).b).testBit 1)) := by
  have h0 := encodeTiles_getD width height pixels tileX tileY row 0 hx hy hr (by omega) 0
  have h1 := encodeTiles_getD width height pixels tileX tileY row 1 hx hy hr (by omega) 0
  rw [Nat.add_zero] at h0
  simp only [List.getD_cons_zero, List.getD_cons_succ] at h0 h1
  constructor
  · rw [h0, (tileRowBytes_testBit width height pixels tileX tileY row col hc).1,
      decide_and_one _ (colorToGBDKValue_lt _ _ _)]
  · rw [h1, (tileRowBytes_testBit width height pixels tileX tileY row col hc).2,
      decide_and_two _ (colorToGBDKValue_lt _ _ _)]

/-- Witness for C1 at the 8 by 8 all-darkest image, tile (0, 0), row 0,
column 0. -/
theorem claim_C1_tile_bit_layout_witness :
    (((encodeTiles 8 8 (List.replicate 64 ⟨15, 56, 15, 255⟩)).getD
        (((0 * tileCountOf 8 + 0) * 8 + 0) * 2) 0).testBit (7 - 0)
      = (decide (0 * 8 + 0 < 8 ∧ 0 * 8 + 0 < 8) &&
         (colorToGBDKValue (pixelAt 8 (List.replicate 64 ⟨15, 56, 15, 255⟩) (0 * 8 + 0) (0 * 8 + 0)).r
            (pixelAt 8 (List.replicate 64 ⟨15, 56, 15, 255⟩) (0 * 8 + 0) (0 * 8 + 0)).g
            (pixelAt 8 (List.replicate 64 ⟨15, 56, 15, 255⟩) (0 * 8 + 0) (0 * 8 + 0)).b).testBit 0)) ∧
    (((encodeTiles 8 8 (List.replicate 64 ⟨15, 56, 15, 255⟩)).getD
        (((0 * tileCountOf 8 + 0) * 8 + 0) * 2 + 1) 0).testBit (7 - 0)
      = (decide (0 * 8 + 0 < 8 ∧ 0 * 8 + 0 < 8) &&
         (colorToGBDKValue (pixelAt 8 (List.replicate 64 ⟨15, 56, 15, 255⟩) (0 * 8 + 0) (0 * 8 + 0)).r
            (pixelAt 8 (List.replicate 64 ⟨15, 56, 15, 255⟩) (0 * 8 + 0) (0 * 8 + 0)).g
            (pixelAt 8 (List.replicate 64 ⟨15, 56, 15, 255⟩) (0 * 8 + 0) (0 * 8 + 0)).b).testBit 1)) :=
  claim_C1_tile_bit_layout 8 8 (List.replicate 64 ⟨15, 56, 15, 255⟩)
    (by decide) (by decide) 0 0 0 0 (by decide) (by decide) (by decide) (by decide)

/-- C2: for width and height at least 1 the encoded byte sequence has
exactly ceil(width / 8) * ceil(height / 8) * 16 bytes; over naturals
ceil(n / 8) is (n + 7) / 8, the tileWidth and tileHeight of the source. -/
theorem claim_C2_encoded_length (width height : Nat) (pixels : List Pixel)
    (hw : 1 ≤ width) (hh : 1 ≤ height) :
    (encodeTiles width height pixels).length =
      ((width + 7) / 8) * ((height + 7) / 8) * 16 :=
  encodeTiles_length width height pixels

/-- Witness for C2 at the 5 by 5 buffer, a single partial tile of 16
bytes. -/
theorem claim_C2_encoded_length_witness :
    (encodeTiles 5 5 (List.replicate 25 ⟨15, 56, 15, 255⟩)).length =
      ((5 + 7) / 8) * ((5 + 7) / 8) * 16 :=
  claim_C2_encoded_length 5 5 (List.replicate 25 ⟨15, 56, 15, 255⟩) (by decide) (by decide)

/-- C3: for every RGB input in range, findClosestGameBoyColor returns the
palette entry of least index among those minimizing the Euclidean
distance: scanning entries 0 to 3 with a strict-less-than comparison, an
exact tie keeps the earlier entry, and the result is always a palette
entry.  Distances are compared through their exact integer squares, which
the strictly monotone square root preserves. -/
theorem claim_C3_nearest_palette (r g b : Nat)
    (hr : r ≤ 255) (hg : g ≤ 255) (hb : b ≤ 255) :
    ∃ k, k < 4 ∧ findClosestGameBoyColor r g b = paletteColor k ∧
      (∀ j, j < 4 →
        colorDistanceSq ⟨r, g, b⟩ (paletteColor k) ≤ colorDistanceSq ⟨r, g, b⟩ (paletteColor j)) ∧
      (∀ j, j < k →
        colorDistanceSq ⟨r, g, b⟩ (paletteColor k) < colorDistanceSq ⟨r, g, b⟩ (paletteColor j)) :=
  findClosest_argmin r g b

/-- Witness for C3 at pure black. -/
theorem claim_C3_nearest_palette_witness :
    ∃ k, k < 4 ∧ findClosestGameBoyColor 0 0 0 = paletteColor k ∧
      (∀ j, j < 4 →
        colorDistanceSq ⟨0, 0, 0⟩ (paletteColor k) ≤ colorDistanceSq ⟨0, 0, 0⟩ (paletteColor j)) ∧
      (∀ j, j < k →
        colorDistanceSq ⟨0, 0, 0⟩ (paletteColor k) < colorDistanceSq ⟨0, 0, 0⟩ (paletteColor j)) :=
  claim_C3_nearest_palette 0 0 0 (by decide) (by decide) (by decide)

/-- C4 counterexample: the first byte of the encoding of the 8 by 8
all-palette-3 image is a low-plane byte, and it is 0xFF, not 0x00 as the
claim states; palette index 3 is binary 11, so both planes receive the
bit. -/
theorem claim_C4_counterexample :
    (encodeTiles 8 8 (List.replicate 64 ⟨15, 56, 15, 255⟩)).getD 0 0 = 255 ∧
    (encodeTiles 8 8 (List.replicate 64 ⟨15, 56, 15, 255⟩)).getD 0 0 ≠ 0 := by
  decide

/-- C4 amended: an 8 by 8 image whose every pixel is palette entry 3
encodes to exactly 16 bytes, every low-plane byte and every high-plane
byte equal to 0xFF. -/
theorem claim_C4_all_ff :
    encodeTiles 8 8 (List.replicate 64 ⟨15, 56, 15, 255⟩) =
      [255, 255, 255, 255, 255, 255, 255, 255,
       255, 255, 255, 255, 255, 255, 255, 255] := by
  decide

/-- C5 counterexample: at width 0 and height 0 the encoder raises nothing
and returns the zero-length byte buffer the claim says is never
produced; no InvalidDimensions condition exists anywhere in the code. -/
theorem claim_C5_counterexample : encodeTiles 0 0 [] = [] := by decide

/-- C5 amended: the code performs no dimension validation: when either
dimension is zero the tile loops simply run zero times and return an
empty byte sequence, and the quantization pass processes whatever buffer
it is handed, one output pixel per input pixel, with no error path. -/
theorem claim_C5_no_validation :
    (∀ height : Nat, ∀ pixels : List Pixel, encodeTiles 0 height pixels = []) ∧
    (∀ width : Nat, ∀ pixels : List Pixel, encodeTiles width 0 pixels = []) ∧
    (∀ pixels : List Pixel, (quantize pixels).length = pixels.length) := by
  refine ⟨?_, ?_, ?_⟩
  · intro h pix
    have hl : (encodeTiles 0 h pix).length = 0 := by
      rw [encodeTiles_length]
      simp [tileCountOf]
    exact List.length_eq_zero.mp hl
  · intro w pix
    have hl : (encodeTiles w 0 pix).length = 0 := by
      rw [encodeTiles_length]
      simp [tileCountOf]
    exact List.length_eq_zero.mp hl
  · intro pix
    simp [quantize]

/-- C6: quantization preserves length and order, copies every alpha
unchanged, and produces only palette RGB triples. -/
theorem claim_C6_quantize_shape (pixels : List Pixel) :
    (quantize pixels).length = pixels.length ∧
    ∀ i, i < pixels.length →
      ((quantize pixels).getD i ⟨0, 0, 0, 0⟩).a = (pixels.getD i ⟨0, 0, 0, 0⟩).a ∧
      (⟨((quantize pixels).getD i ⟨0, 0, 0, 0⟩).r,
        ((quantize pixels).getD i ⟨0, 0, 0, 0⟩).g,
        ((quantize pixels).getD i ⟨0, 0, 0, 0⟩).b⟩ : Color) ∈ GAMEBOY_PALETTE := by
  constructor
  · simp [quantize]
  · intro i hi
    rw [show quantize pixels = pixels.map (fun p =>
      (⟨(findClosestGameBoyColor p.r p.g p.b).r, (findClosestGameBoyColor p.r p.g p.b).g,
        (findClosestGameBoyColor p.r p.g p.b).b, p.a⟩ : Pixel)) from rfl]
    rw [map_getD_lt (fun p : Pixel =>
      (⟨(findClosestGameBoyColor p.r p.g p.b).r, (findClosestGameBoyColor p.r p.g p.b).g,
        (findClosestGameBoyColor p.r p.g p.b).b, p.a⟩ : Pixel)) pixels i hi
      (⟨0, 0, 0, 0⟩ : Pixel) (⟨0, 0, 0, 0⟩ : Pixel)]
    exact ⟨rfl, findClosest_mem _ _ _⟩

/-- Witness for C6 at a one-pixel buffer. -/
theorem claim_C6_quantize_shape_witness :
    ((quantize [⟨1, 2, 3, 7⟩]).getD 0 ⟨0, 0, 0, 0⟩).a
        = (([⟨1, 2, 3, 7⟩] : List Pixel).getD 0 ⟨0, 0, 0, 0⟩).a ∧
    (⟨((quantize [⟨1, 2, 3, 7⟩]).getD 0 ⟨0, 0, 0, 0⟩).r,
      ((quantize [⟨1, 2, 3, 7⟩]).getD 0 ⟨0, 0, 0, 0⟩).g,
      ((quantize [⟨1, 2, 3, 7⟩]).getD 0 ⟨0, 0, 0, 0⟩).b⟩ : Color) ∈ GAMEBOY_PALETTE :=
  (claim_C6_quantize_shape [⟨1, 2, 3, 7⟩]).2 0 (by decide)

/-- C7: colorToGBDKValue round-trips every palette entry to its index and
maps every non-palette RGB triple to 0. -/
theorem claim_C7_exact_lookup :
    (∀ k, k < 4 →
      colorToGBDKValue (paletteColor k).r (paletteColor k).g (paletteColor k).b = k) ∧
    (∀ r g b : Nat, (⟨r, g, b⟩ : Color) ∉ GAMEBOY_PALETTE → colorToGBDKValue r g b = 0) := by
  constructor
  · intro k hk
    interval_cases k <;> decide
  · intro r g b hmem
    unfold colorToGBDKValue
    split_ifs with h1 h2 h3 h4
    · rcases h1 with ⟨ha, hb2, hc⟩
      subst ha; subst hb2; subst hc
      exact absurd (by decide) hmem
    · rcases h2 with ⟨ha, hb2, hc⟩
      subst ha; subst hb2; subst hc
      exact absurd (by decide) hmem
    · rcases h3 with ⟨ha, hb2, hc⟩
      subst ha; subst hb2; subst hc
      exact absurd (by decide) hmem
    · rcases h4 with ⟨ha, hb2, hc⟩
      subst ha; subst hb2; subst hc
      exact absurd (by decide) hmem
    · rfl

/-- Witness for C7: the fallback at a non-palette color. -/
theorem claim_C7_exact_lookup_witness : colorToGBDKValue 1 2 3 = 0 :=
  claim_C7_exact_lookup.2 1 2 3 (by decide)

/-- C8: quantization is the identity on buffers whose RGB values already
lie in the palette, and quantize composed with quantize equals quantize
on every buffer. -/
theorem claim_C8_idempotent :
    (∀ pixels : List Pixel,
      (∀ p ∈ pixels, (⟨p.r, p.g, p.b⟩ : Color) ∈ GAMEBOY_PALETTE) → quantize pixels = pixels) ∧
    (∀ pixels : List Pixel, quantize (quantize pixels) = quantize pixels) :=
  ⟨quantize_fixed, quantize_idem⟩

/-- Witness for C8 on a one-pixel palette buffer. -/
theorem claim_C8_idempotent_witness :
    quantize [⟨155, 188, 15, 9⟩] = [⟨155, 188, 15, 9⟩] :=
  claim_C8_idempotent.1 [⟨155, 188, 15, 9⟩] (by decide)

/-- C10: the imperative loop of src/lib/gameboy-converter.js and the
reduce-based fold of src/index.js return the same palette color on every
RGB input in range. -/
theorem claim_C10_loop_reduce_equal (r g b : Nat)
    (hr : r ≤ 255) (hg : g ≤ 255) (hb : b ≤ 255) :
    findClosestGameBoyColor r g b = findClosestGameBoyColorReduce r g b := by
  rw [findClosest_eq_ifs, findClosestReduce_eq_ifs]

/-- Witness for C10. -/
theorem claim_C10_loop_reduce_equal_witness :
    findClosestGameBoyColor 10 20 30 = findClosestGameBoyColorReduce 10 20 30 :=
  claim_C10_loop_reduce_equal 10 20 30 (by decide) (by decide) (by decide)

/-- The library listing contains all six define lines. -/
theorem gbdkListing_mem_define (baseName generatedOn : String) (width height : Nat)
    (tiles : List Nat) :
    ("#define " ++ toUpperStr baseName ++ "_WIDTH " ++ toString width)
        ∈ gbdkListingLines baseName generatedOn width height tiles ∧
    ("#define " ++ toUpperStr baseName ++ "_HEIGHT " ++ toString height)
        ∈ gbdkListingLines baseName generatedOn width height tiles ∧
    ("#define " ++ toUpperStr baseName ++ "_TILE_WIDTH " ++ toString (tileCountOf width))
        ∈ gbdkListingLines baseName generatedOn width height tiles ∧
    ("#define " ++ toUpperStr baseName ++ "_TILE_HEIGHT " ++ toString (tileCountOf height))
        ∈ gbdkListingLines baseName generatedOn width height tiles ∧
    ("#define " ++ toUpperStr baseName ++ "_TILE_COUNT "
        ++ toString (tileCountOf width * tileCountOf height))
        ∈ gbdkListingLines baseName generatedOn width height tiles ∧
    ("#define " ++ toUpperStr baseName ++ "_SIZE " ++ toString tiles.length)
        ∈ gbdkListingLines baseName generatedOn width height tiles := by
  refine ⟨?_, ?_, ?_, ?_, ?_, ?_⟩ <;>
    simp [gbdkListingLines, List.mem_append, List.mem_cons]

/-- C9 counterexample: the functional variant in src/index.js emits no
TILE_COUNT define at all, while the neighboring defines of the same block
are present; so not every generated listing defines all six constants. -/
theorem claim_C9_counterexample :
    "#define SPRITE_TILE_COUNT 4"
        ∉ indexListingLines "sprite" "t" 16 16 (List.replicate 64 0) ∧
    "#define SPRITE_TILE_WIDTH 2"
        ∈ indexListingLines "sprite" "t" 16 16 (List.replicate 64 0) ∧
    "#define SPRITE_SIZE 64"
        ∈ indexListingLines "sprite" "t" 16 16 (List.replicate 64 0) := by
  decide

/-- C9 amended: every listing of the library generator defines all six
size constants prefixed by the uppercased base identifier, with the
values width, height, tileCountX, tileCountY, tileCountX * tileCountY and
the encoded byte length; in particular a 16 by 16 image yields lines
reading TILE_COUNT 4 and SIZE 64.  The functional variant in src/index.js
omits the TILE_COUNT define (see the counterexample). -/
theorem claim_C9_listing_constants :
    (∀ baseName generatedOn : String, ∀ width height : Nat, ∀ tiles : List Nat,
      ("#define " ++ toUpperStr baseName ++ "_WIDTH " ++ toString width)
          ∈ gbdkListingLines baseName generatedOn width height tiles ∧
      ("#define " ++ toUpperStr baseName ++ "_HEIGHT " ++ toString height)
          ∈ gbdkListingLines baseName generatedOn width height tiles ∧
      ("#define " ++ toUpperStr baseName ++ "_TILE_WIDTH " ++ toString (tileCountOf width))
          ∈ gbdkListingLines baseName generatedOn width height tiles ∧
      ("#define " ++ toUpperStr baseName ++ "_TILE_HEIGHT " ++ toString (tileCountOf height))
          ∈ gbdkListingLines baseName generatedOn width height tiles ∧
      ("#define " ++ toUpperStr baseName ++ "_TILE_COUNT "
          ++ toString (tileCountOf width * tileCountOf height))
          ∈ gbdkListingLines baseName generatedOn width height tiles ∧
      ("#define " ++ toUpperStr baseName ++ "_SIZE " ++ toString tiles.length)
          ∈ gbdkListingLines baseName generatedOn width height tiles) ∧
    (∀ baseName generatedOn : String, ∀ pixels : List Pixel,
      ("#define " ++ toUpperStr baseName ++ "_TILE_COUNT " ++ "4")
          ∈ gbdkListingLines baseName generatedOn 16 16 (encodeTiles 16 16 pixels) ∧
      ("#define " ++ toUpperStr baseName ++ "_SIZE " ++ "64")
          ∈ gbdkListingLines baseName generatedOn 16 16 (encodeTiles 16 16 pixels)) := by
  constructor
  · intro baseName generatedOn width height tiles
    exact gbdkListing_mem_define baseName generatedOn width height tiles
  · intro baseName generatedOn pixels
    have h6 := gbdkListing_mem_define baseName generatedOn 16 16 (encodeTiles 16 16 pixels)
    constructor
    · rw [show ("4" : String) = toString (tileCountOf 16 * tileCountOf 16) from rfl]
      exact h6.2.2.2.2.1
    · have hlen : (encodeTiles 16 16 pixels).length = 64 := by
        rw [encodeTiles_length]
        decide
      have hs : ("64" : String) = toString (encodeTiles 16 16 pixels).length := by
        rw [hlen]
        decide
      rw [hs]
      exact h6.2.2.2.2.2

end GB
